import Mathlib

/-!
Verification of `modules/longhurst.py` (OceanICU repository).

The module loads a shapefile of Longhurst provinces (`shapes`, `records`) and a
metadata CSV (`lmeta`) at import time, and exposes two query functions:

* `find_longhurst(x, y, out)` — linear scan over `shapes` with shapely
  `Point(p).within(shape(s))`, early exit at the first containing polygon,
  returning `records[i][0]` (code) or `records[i][1]` (name), with a sentinel
  record when no polygon contains the point;
* `longhurst_meta(prov)` — pandas row lookup by `PROVCODE`, returning the whole
  table when `prov` is `None`.

Coordinates are embedded as exact rationals (the Python floats are a finite
subset of ℚ and the algorithms involve only field operations and comparisons).
Python exceptions are embedded as an explicit error type, fallible computations
as `Except`.
-/

set_option autoImplicit false

namespace Longhurst

/-! ## Geometry: points, rings, shapes, and the shapely `within` test -/

/-- A planar point, longitude/latitude as exact rationals. -/
abbrev Pt := ℚ × ℚ

/-- A ring of a shapefile polygon: a closed vertex chain (first vertex repeated
at the end, as stored in the shapefile); consecutive vertices are edges. -/
abbrev Ring := List Pt

/-- A shapefile shape as consumed by `sy.geometry.shape`: a list of rings
(outer rings and holes). -/
structure Shape where
  rings : List Ring
deriving DecidableEq

/-- Whether point `p` lies on the closed segment from `a` to `b`:
collinear with the segment and inside its bounding box. -/
def onSeg (p a b : Pt) : Bool :=
  decide ((b.1 - a.1) * (p.2 - a.2) = (b.2 - a.2) * (p.1 - a.1)) &&
  decide ((if a.1 ≤ b.1 then a.1 else b.1) ≤ p.1) &&
  decide (p.1 ≤ (if a.1 ≤ b.1 then b.1 else a.1)) &&
  decide ((if a.2 ≤ b.2 then a.2 else b.2) ≤ p.2) &&
  decide (p.2 ≤ (if a.2 ≤ b.2 then b.2 else a.2))

/-- The edges of a ring: consecutive vertex pairs. -/
def ringEdges (r : Ring) : List (Pt × Pt) :=
  r.zip r.tail

/-- Whether `p` lies on the boundary of ring `r`. -/
def onRingBoundary (p : Pt) (r : Ring) : Bool :=
  (ringEdges r).any fun e => onSeg p e.1 e.2

/-- Whether `p` lies on the boundary of shape `s` (any ring). -/
def onBoundary (p : Pt) (s : Shape) : Bool :=
  s.rings.any (onRingBoundary p)

/-- Whether edge `(a, b)` crosses the horizontal ray going right from `p`
(standard exact ray-casting crossing test). -/
def edgeCrosses (p a b : Pt) : Bool :=
  (decide (a.2 ≤ p.2) != decide (b.2 ≤ p.2)) &&
  decide (p.1 < a.1 + (p.2 - a.2) * (b.1 - a.1) / (b.2 - a.2))

/-- Number of ring edges crossing the rightward ray from `p`. -/
def ringCrossings (p : Pt) (r : Ring) : Nat :=
  ((ringEdges r).filter fun e => edgeCrosses p e.1 e.2).length

/-- Total crossings over all rings of a shape. -/
def shapeCrossings (p : Pt) (s : Shape) : Nat :=
  s.rings.foldl (fun n r => n + ringCrossings p r) 0

/-- Whether `p` lies in the interior of shape `s`, by the even-odd rule over
all rings (outer rings and holes alike), excluding boundary points. -/
def inInterior (p : Pt) (s : Shape) : Bool :=
  !onBoundary p s && (shapeCrossings p s % 2 == 1)

/-- Embeds shapely `Point(p).within(shape(s))` as used at
`longhurst.py:98`. Shapely `within` is the DE-9IM *within* relation: for a
point it holds iff the point lies in the **interior** of the polygon; a point
exactly on the polygon boundary is **not** within it. -/
def within (p : Pt) (s : Shape) : Bool :=
  inInterior p s

/-! ## Python values and exceptions -/

/-- A Python value passed as a coordinate argument: either float-coercible
with value `q`, or a value on which `float()` raises. -/
inductive PyVal where
  | num (q : ℚ)
  | nonNumeric (descr : String)
deriving DecidableEq

/-- A raised Python exception, as relevant to this module. -/
inductive PyErr where
  | valueError (msg : String)
  | keyError (key : String)
  | nameError (name : String)
  | indexError (msg : String)
  | parserError (msg : String)
deriving DecidableEq

/-- `float(x)`: identity on numeric values, `ValueError` otherwise. -/
def pyFloat : PyVal → Except PyErr ℚ
  | .num q => .ok q
  | .nonNumeric d => .error (.valueError ("could not convert to float: " ++ d))

/-- Whether `float()` succeeds on the value. -/
def coercible : PyVal → Bool
  | .num _ => true
  | .nonNumeric _ => false

/-- Python dict lookup `d[k]` on a literal dict: first matching key, or
`KeyError`. -/
def dictGet (d : List (String × String)) (k : String) : Except PyErr String :=
  match d.find? (fun kv => kv.1 == k) with
  | some kv => .ok kv.2
  | none => .error (.keyError k)

/-- Python substring test `needle in hay`. -/
def pyIn (needle hay : String) : Bool :=
  (hay.splitOn needle).length != 1

/-! ## Module state -/

/-- A shapefile record as used by the module: field `0` is the province code,
field `1` the full province name (`records[i][0]`, `records[i][1]`). -/
structure Rec where
  code : String
  name : String
deriving DecidableEq

/-- One row of the metadata CSV `lmeta`. The module only inspects the
`PROVCODE` column; the remaining columns are carried as label/value pairs. -/
structure MetaRow where
  PROVCODE : String
  PROVDESCR : String
  fields : List (String × String)
deriving DecidableEq

/-- `Series.to_dict()` of a single metadata row: field-name to value mapping. -/
def rowToDict (r : MetaRow) : List (String × String) :=
  ("PROVCODE", r.PROVCODE) :: ("PROVDESCR", r.PROVDESCR) :: r.fields

/-- The module-level state after import: `shapes = sf.shapes()`,
`records = sf.records()` and `lmeta = read_csv(...)`. `lmeta = none` models the
name `lmeta` being unbound (its `read_csv` failed with `FileNotFoundError`,
which the module catches and prints), so that any access raises `NameError`. -/
structure ModuleState where
  shapes : List Shape
  records : List Rec
  lmeta : Option (List MetaRow)
deriving DecidableEq

/-! ## `find_longhurst` -/

/-- The `for i in range(len(shapes))` loop of `find_longhurst` with its
`if is_in_poly: break`: returns the loop index at the first shape containing
the point, or `none` when the loop falls through with `is_in_poly` false
(also when `shapes` is empty, where `is_in_poly` keeps its initial `False`).
`k` is the index of the first remaining shape. -/
def scan (p : Pt) : List Shape → Nat → Option Nat
  | [], _ => none
  | sh :: rest, k => if within p sh then some k else scan p rest (k + 1)

/-- `scan` started at index `0`, as the loop itself is. -/
def scanShapes (p : Pt) (shs : List Shape) : Option Nat :=
  scan p shs 0

/-- The sentinel `name` field returned when no province contains the point. -/
def sentinelName : String :=
  "Point not in Longhurst province. Likely land, or unassigned area close to Antarctica."

/-- `find_longhurst(x, y, out)` (`longhurst.py:61-111`): coerce both
coordinates with `float`, scan the shapes with early exit, build the dict
`lp` from `records[i]` or the sentinel pair, and return `lp[out]`. -/
def find_longhurst (s : ModuleState) (x y : PyVal) (out : String) :
    Except PyErr String :=
  match pyFloat x with
  | .error e => .error e
  | .ok xf =>
    match pyFloat y with
    | .error e => .error e
    | .ok yf =>
      match scanShapes (xf, yf) s.shapes with
      | some i =>
        match s.records.get? i with
        | some r => dictGet [("code", r.code), ("name", r.name)] out
        | none => .error (.indexError "list index out of range")
      | none => dictGet [("code", "NOT_IN_PROV"), ("name", sentinelName)] out

/-- `find_longhurst` in state-passing form. The Python function reads the
module globals `shapes` and `records` and assigns only locals (`x`, `y`,
`is_in_poly`, `i`, `bshp`, `scoords`, `lp`), no global, so the module state
after the call is the state before. -/
def find_longhurst_st (s : ModuleState) (x y : PyVal) (out : String) :
    ModuleState × Except PyErr String :=
  (s, find_longhurst s x y out)

/-! ## `longhurst_meta` -/

/-- Result of `longhurst_meta`: the whole table (`prov=None`), a single row as
a field-name to value dict (`df.squeeze().to_dict()` on one matching row), or
the column-major dict obtained when `squeeze` leaves a multi-row DataFrame
(more than one matching row; carried abstractly as the matching rows). -/
inductive MetaResult where
  | table (t : List MetaRow)
  | rowDict (d : List (String × String))
  | frameDict (rows : List MetaRow)
deriving DecidableEq

/-- `longhurst_meta(prov)` (`longhurst.py:114-182`): with `prov=None` return
the module table `lmeta`; otherwise filter rows with matching `PROVCODE`,
raising `ValueError("invalid province code")` when none matches. Accessing the
unbound `lmeta` raises `NameError`. -/
def longhurst_meta (s : ModuleState) (prov : Option String) :
    Except PyErr MetaResult :=
  match s.lmeta with
  | none => .error (.nameError "lmeta")
  | some t =>
    match prov with
    | none => .ok (.table t)
    | some p =>
      let df := t.filter fun r => r.PROVCODE == p
      if df.length = 0 then
        .error (.valueError "invalid province code")
      else
        match df with
        | [r] => .ok (.rowDict (rowToDict r))
        | _ => .ok (.frameDict df)

/-- `longhurst_meta` in state-passing form: the Python function assigns only
locals (`df`, `provmeta`), no global, so the state is returned unchanged. -/
def longhurst_meta_st (s : ModuleState) (prov : Option String) :
    ModuleState × Except PyErr MetaResult :=
  (s, longhurst_meta s prov)

/-! ## Module-level loading (`longhurst.py:18-55`) -/

/-- Outcome of `shapefile.Reader(fpath)`: success with the parallel shape and
record sequences, or an exception whose `str(e)` is `msg`. -/
inductive ShpSource where
  | ok (shapes : List Shape) (records : List Rec)
  | err (msg : String)

/-- Outcome of `read_csv(fpath, sep, header)`: success, `FileNotFoundError`
(the only exception class the module catches), or any other exception
(e.g. a pandas parse error), which the module does not catch. -/
inductive CsvSource where
  | ok (rows : List MetaRow)
  | fileNotFound
  | otherError (msg : String)

/-- The message printed when opening the shapefile fails with an error whose
text contains "Unable to open" (file missing): expected name and location,
download URL, and unpacking instructions. -/
def shpMissingMsg : String :=
  "Shapefile of Longhurst provinces (Longhurst_world_v4_2010) not found!\n\nCheck that it is correctly named or that it is in the correct location (rawdata/longhurst/).\n\nOtherwise, download data from:\n\nhttps://www.marineregions.org/downloads.php#longhurst\n\nPlace file (longhurst_v4_2010.zip) in the rawdata/longhurst/ folder of the project and unzip it."

/-- The message printed when `read_csv` raises `FileNotFoundError`
(`print` joins its two arguments with a space): origin URL and the manual
preprocessing the file needs. -/
def csvMissingMsg : String :=
  "No such file or directory: rawdata/longhurst/Longhurst_Province_Summary.csv" ++ " " ++
  "\n\nThe source file can be obtained in: https://www.marineregions.org/sources.php#longhurst\n\nRemove pre-header lines and empty columns between data columns, and convert to \x27;\x27-separated .csv"

/-- What importing the module produces: the diagnostics printed to stdout, and
either the resulting module state or the exception that aborted the import. -/
structure LoadResult where
  printed : List String
  result : Except PyErr ModuleState

/-- The module-level load code of `longhurst.py:18-55`. Both `try` blocks
catch their exception and `print` a diagnostic instead of raising:

* shapefile failure — prints `shpMissingMsg` when `str(e)` contains
  "Unable to open", else the verbatim cause; `sf` stays unbound, so the next
  statement `shapes = sf.shapes()` aborts the import with a `NameError`;
* CSV `FileNotFoundError` — prints `csvMissingMsg`; `lmeta` stays unbound and
  the import nevertheless completes;
* any other CSV exception — uncaught, aborts the import. -/
def loadModule (shp : ShpSource) (csv : CsvSource) : LoadResult :=
  match shp with
  | .err m =>
    { printed := [if pyIn "Unable to open" m then shpMissingMsg
                  else "Error when reading Longhurst shapefile:\n\n" ++ m],
      result := .error (.nameError "sf") }
  | .ok shs recs =>
    match csv with
    | .fileNotFound =>
      { printed := [csvMissingMsg], result := .ok ⟨shs, recs, none⟩ }
    | .otherError m =>
      { printed := [], result := .error (.parserError m) }
    | .ok rows =>
      { printed := [], result := .ok ⟨shs, recs, some rows⟩ }

/-! ## Concrete fixtures used by witnesses and counterexamples -/

/-- A square province polygon (single closed ring). -/
def sqShape : Shape :=
  ⟨[[(0, 0), (2, 0), (2, 2), (0, 2), (0, 0)]]⟩

/-- A loaded module state with the single square province. -/
def sqState : ModuleState :=
  ⟨[sqShape], [⟨"SQRE", "Square province"⟩], some []⟩

/-- A module state whose shapefile data is empty. -/
def emptyState : ModuleState :=
  ⟨[], [], none⟩

/-- A sample metadata row. -/
def rowARCT : MetaRow :=
  ⟨"ARCT", "Atlantic Arctic Province", [("Biome", "P")]⟩

/-- A loaded module state with a one-row metadata table. -/
def metaState : ModuleState :=
  ⟨[], [], some [rowARCT]⟩

/-! ## Lemmas about the scan loop -/

theorem scan_cons_pos (p : Pt) (a : Shape) (rest : List Shape) (k : Nat)
    (hw : within p a = true) : scan p (a :: rest) k = some k := by
  simp [scan, hw]

theorem scan_cons_neg (p : Pt) (a : Shape) (rest : List Shape) (k : Nat)
    (hw : within p a = false) : scan p (a :: rest) k = scan p rest (k + 1) := by
  simp [scan, hw]

theorem scan_none_iff (p : Pt) (l : List Shape) (k : Nat) :
    scan p l k = none ↔ ∀ sh ∈ l, within p sh = false := by
  induction l generalizing k with
  | nil => simp [scan]
  | cons a rest ih =>
    cases hw : within p a with
    | true =>
      rw [scan_cons_pos p a rest k hw]
      constructor
      · intro h; cases h
      · intro h
        have ha := h a (List.mem_cons_self a rest)
        rw [hw] at ha
        cases ha
    | false =>
      rw [scan_cons_neg p a rest k hw, ih]
      constructor
      · intro h sh hsh
        rcases List.mem_cons.mp hsh with rfl | hm
        · exact hw
        · exact h sh hm
      · intro h sh hsh
        exact h sh (List.mem_cons_of_mem a hsh)

theorem scan_some_spec (p : Pt) (l : List Shape) (k i : Nat)
    (h : scan p l k = some i) :
    ∃ j, ∃ hj : j < l.length, i = k + j ∧ within p (l.get ⟨j, hj⟩) = true ∧
      ∀ j', (hj' : j' < j) → within p (l.get ⟨j', Nat.lt_trans hj' hj⟩) = false := by
  induction l generalizing k i with
  | nil => simp [scan] at h
  | cons a rest ih =>
    cases hw : within p a with
    | true =>
      rw [scan_cons_pos p a rest k hw] at h
      injection h with h
      refine ⟨0, Nat.succ_pos _, by omega, hw, ?_⟩
      intro j' hj'
      exact absurd hj' (Nat.not_lt_zero j')
    | false =>
      rw [scan_cons_neg p a rest k hw] at h
      obtain ⟨j, hj, hi, hwj, hmin⟩ := ih (k + 1) i h
      refine ⟨j + 1, Nat.succ_lt_succ hj, by omega, hwj, ?_⟩
      intro j' hj'
      cases j' with
      | zero => exact hw
      | succ j'' => exact hmin j'' (Nat.lt_of_succ_lt_succ hj')

theorem scan_first_match (p : Pt) (l : List Shape) (k i : Nat) (hi : i < l.length)
    (hw : within p (l.get ⟨i, hi⟩) = true)
    (hmin : ∀ j, (hj : j < i) → within p (l.get ⟨j, Nat.lt_trans hj hi⟩) = false) :
    scan p l k = some (k + i) := by
  induction l generalizing k i with
  | nil => exact absurd hi (Nat.not_lt_zero i)
  | cons a rest ih =>
    cases i with
    | zero =>
      have ha : within p a = true := hw
      rw [scan_cons_pos p a rest k ha, Nat.add_zero]
    | succ j =>
      have ha : within p a = false := hmin 0 (Nat.succ_pos j)
      rw [scan_cons_neg p a rest k ha]
      have hj : j < rest.length := Nat.lt_of_succ_lt_succ hi
      have step := ih (k + 1) j hj hw
        (fun j' hj' => hmin (j' + 1) (Nat.succ_lt_succ hj'))
      rw [step]
      congr 1
      omega

theorem scanShapes_eq_none (p : Pt) (shs : List Shape)
    (h : ∀ i, (hi : i < shs.length) → within p (shs.get ⟨i, hi⟩) = false) :
    scanShapes p shs = none := by
  rw [scanShapes, scan_none_iff]
  intro sh hsh
  rcases List.mem_iff_get.mp hsh with ⟨n, rfl⟩
  exact h n n.isLt

theorem within_eq_false_of_onBoundary (p : Pt) (s : Shape)
    (h : onBoundary p s = true) : within p s = false := by
  simp [within, inInterior, h]

/-! ## Lemmas about dict projection -/

theorem dictGet_code (c n : String) :
    dictGet [("code", c), ("name", n)] "code" = .ok c := rfl

theorem dictGet_name (c n : String) :
    dictGet [("code", c), ("name", n)] "name" = .ok n := rfl

theorem dictGet_ok_iff (c n out : String) :
    (∃ v, dictGet [("code", c), ("name", n)] out = .ok v) ↔
      (out = "code" ∨ out = "name") := by
  constructor
  · intro ⟨v, hv⟩
    by_cases hc : out = "code"
    · exact Or.inl hc
    · by_cases hn : out = "name"
      · exact Or.inr hn
      · exfalso
        have hbc : (("code", c).1 == out) = false := by
          simp [Ne.symm hc]
        have hbn : (("name", n).1 == out) = false := by
          simp [Ne.symm hn]
        simp [dictGet, List.find?, hbc, hbn] at hv
  · intro h
    rcases h with rfl | rfl
    · exact ⟨c, dictGet_code c n⟩
    · exact ⟨n, dictGet_name c n⟩

theorem dictGet_error_eq (c n out : String) (e : PyErr)
    (h : dictGet [("code", c), ("name", n)] out = .error e) :
    e = .keyError out := by
  by_cases hc : out = "code"
  · subst hc; rw [dictGet_code] at h; cases h
  · by_cases hn : out = "name"
    · subst hn; rw [dictGet_name] at h; cases h
    · have hbc : (("code", c).1 == out) = false := by simp [Ne.symm hc]
      have hbn : (("name", n).1 == out) = false := by simp [Ne.symm hn]
      simp [dictGet, List.find?, hbc, hbn] at h
      exact h.symm

/-! ## Claim theorems -/

/-- C1: for every pair of float-coercible coordinates, `find_longhurst` scans
the shape sequence in its stored order; if some polygon contains the point it
returns the code/name fields of the record at the first containing index, and
if no polygon contains the point it returns the sentinel record whose code is
`"NOT_IN_PROV"`. -/
theorem find_longhurst_first_match_or_sentinel (s : ModuleState) (x y : ℚ)
    (hlen : s.records.length = s.shapes.length) :
    (∀ i, (hi : i < s.shapes.length) →
      within (x, y) (s.shapes.get ⟨i, hi⟩) = true →
      (∀ j, (hj : j < i) →
        within (x, y) (s.shapes.get ⟨j, Nat.lt_trans hj hi⟩) = false) →
      ∃ hr : i < s.records.length,
        find_longhurst s (.num x) (.num y) "code" =
          .ok (s.records.get ⟨i, hr⟩).code ∧
        find_longhurst s (.num x) (.num y) "name" =
          .ok (s.records.get ⟨i, hr⟩).name) ∧
    ((∀ i, (hi : i < s.shapes.length) →
        within (x, y) (s.shapes.get ⟨i, hi⟩) = false) →
      find_longhurst s (.num x) (.num y) "code" = .ok "NOT_IN_PROV" ∧
      find_longhurst s (.num x) (.num y) "name" = .ok sentinelName) := by
  constructor
  · intro i hi hw hmin
    have hscan : scanShapes (x, y) s.shapes = some i := by
      have h0 := scan_first_match (x, y) s.shapes 0 i hi hw hmin
      simpa [scanShapes] using h0
    have hr : i < s.records.length := by rw [hlen]; exact hi
    have hget : s.records[i]? = some s.records[i] :=
      List.getElem?_eq_getElem hr
    refine ⟨hr, ?_, ?_⟩
    · simp [find_longhurst, pyFloat, hscan, hget, dictGet_code]
    · simp [find_longhurst, pyFloat, hscan, hget, dictGet_name]
  · intro h
    have hscan : scanShapes (x, y) s.shapes = none := scanShapes_eq_none _ _ h
    constructor
    · simp [find_longhurst, pyFloat, hscan, dictGet_code]
    · simp [find_longhurst, pyFloat, hscan, dictGet_name]

/-- C1 witness: in the square-province store, the point (1, 1) lies inside the
first (and only) shape, and both projections come from its record. -/
theorem find_longhurst_first_match_or_sentinel_witness :
    find_longhurst sqState (.num 1) (.num 1) "code" = .ok "SQRE" ∧
    find_longhurst sqState (.num 1) (.num 1) "name" = .ok "Square province" := by
  have h := find_longhurst_first_match_or_sentinel sqState 1 1 rfl
  have h1 := h.1 0 (by decide) (by with_unfolding_all decide)
    (fun j hj => absurd hj (Nat.not_lt_zero j))
  obtain ⟨hr, hc, hn⟩ := h1
  exact ⟨hc, hn⟩

/-- C3: both projections of the same query come from the same underlying
result record: either the record at the scan's match index, or the sentinel
record. -/
theorem find_longhurst_code_name_consistent (s : ModuleState) (x y : ℚ)
    (hlen : s.records.length = s.shapes.length) :
    (∃ i, ∃ hr : i < s.records.length,
      scanShapes (x, y) s.shapes = some i ∧
      find_longhurst s (.num x) (.num y) "code" =
        .ok (s.records.get ⟨i, hr⟩).code ∧
      find_longhurst s (.num x) (.num y) "name" =
        .ok (s.records.get ⟨i, hr⟩).name) ∨
    (scanShapes (x, y) s.shapes = none ∧
      find_longhurst s (.num x) (.num y) "code" = .ok "NOT_IN_PROV" ∧
      find_longhurst s (.num x) (.num y) "name" = .ok sentinelName) := by
  cases hscan : scanShapes (x, y) s.shapes with
  | none =>
    refine Or.inr ⟨rfl, ?_, ?_⟩
    · simp [find_longhurst, pyFloat, hscan, dictGet_code]
    · simp [find_longhurst, pyFloat, hscan, dictGet_name]
  | some i =>
    have hi : i < s.shapes.length := by
      obtain ⟨j, hj, hij, -, -⟩ := scan_some_spec (x, y) s.shapes 0 i hscan
      omega
    have hr : i < s.records.length := by rw [hlen]; exact hi
    have hget : s.records[i]? = some s.records[i] :=
      List.getElem?_eq_getElem hr
    refine Or.inl ⟨i, hr, rfl, ?_, ?_⟩
    · simp [find_longhurst, pyFloat, hscan, hget, dictGet_code]
    · simp [find_longhurst, pyFloat, hscan, hget, dictGet_name]

/-- C3 witness: the two projections at (1, 1) in the square-province store are
projections of one record. -/
theorem find_longhurst_code_name_consistent_witness :
    (∃ i, ∃ hr : i < sqState.records.length,
      scanShapes (1, 1) sqState.shapes = some i ∧
      find_longhurst sqState (.num 1) (.num 1) "code" =
        .ok (sqState.records.get ⟨i, hr⟩).code ∧
      find_longhurst sqState (.num 1) (.num 1) "name" =
        .ok (sqState.records.get ⟨i, hr⟩).name) ∨
    (scanShapes (1, 1) sqState.shapes = none ∧
      find_longhurst sqState (.num 1) (.num 1) "code" = .ok "NOT_IN_PROV" ∧
      find_longhurst sqState (.num 1) (.num 1) "name" = .ok sentinelName) :=
  find_longhurst_code_name_consistent sqState 1 1 rfl

/-- C10: `find_longhurst` is total in the degenerate case: with an empty shape
sequence, or when no polygon contains the point, the scan falls through and
the sentinel record is returned for both valid selectors, whatever the record
sequence holds. -/
theorem find_longhurst_total_sentinel (s : ModuleState) (x y : ℚ) (out : String)
    (hout : out = "code" ∨ out = "name")
    (hmiss : s.shapes = [] ∨ ∀ i, (hi : i < s.shapes.length) →
      within (x, y) (s.shapes.get ⟨i, hi⟩) = false) :
    find_longhurst s (.num x) (.num y) out =
      .ok (if out = "code" then "NOT_IN_PROV" else sentinelName) := by
  have h : ∀ i, (hi : i < s.shapes.length) →
      within (x, y) (s.shapes.get ⟨i, hi⟩) = false := by
    rcases hmiss with he | h
    · intro i hi
      rw [he] at hi
      exact absurd hi (Nat.not_lt_zero i)
    · exact h
  have hscan := scanShapes_eq_none (x, y) s.shapes h
  rcases hout with rfl | rfl
  · simp [find_longhurst, pyFloat, hscan, dictGet_code]
  · simp [find_longhurst, pyFloat, hscan, dictGet_name]

/-- C10 witness: on a store whose shape sequence is empty (and whose record
sequence is empty too), the sentinel code is returned without error. -/
theorem find_longhurst_total_sentinel_witness :
    find_longhurst emptyState (.num 0) (.num 0) "code" = .ok "NOT_IN_PROV" := by
  have h := find_longhurst_total_sentinel emptyState 0 0 "code"
    (Or.inl rfl) (Or.inl rfl)
  simpa using h

/-- C2 counterexample: the point (1, 0) lies exactly on the boundary of the
square province polygon, yet the classifier does not count it as belonging to
that province: it returns the sentinel code `"NOT_IN_PROV"`. -/
theorem boundary_point_classified_not_in_prov :
    onBoundary ((1 : ℚ), (0 : ℚ)) sqShape = true ∧
    find_longhurst sqState (.num 1) (.num 0) "code" = .ok "NOT_IN_PROV" := by
  constructor
  · with_unfolding_all decide
  · with_unfolding_all rfl

/-- C2 amended: the containment test used by the classifier (shapely `within`)
counts a point as inside a polygon only when it lies in the polygon's
interior; a point exactly on a polygon's boundary is not within it, so the
scan never resolves the point to a province through a polygon on whose
boundary it lies. -/
theorem scan_never_matches_boundary (s : ModuleState) (p : Pt) (i : Nat)
    (hi : i < s.shapes.length)
    (hb : onBoundary p (s.shapes.get ⟨i, hi⟩) = true) :
    within p (s.shapes.get ⟨i, hi⟩) = false ∧
    scanShapes p s.shapes ≠ some i := by
  have hw := within_eq_false_of_onBoundary p _ hb
  refine ⟨hw, ?_⟩
  intro hscan
  obtain ⟨j, hj, hij, hwj, -⟩ := scan_some_spec p s.shapes 0 i hscan
  have hji : j = i := by omega
  subst hji
  have hfin : (⟨j, hj⟩ : Fin s.shapes.length) = ⟨j, hi⟩ := rfl
  rw [hfin, hw] at hwj
  cases hwj

/-- C2 amended witness: in the square-province store, (1, 0) is on the
boundary of shape 0, is not within it, and the scan does not match it. -/
theorem scan_never_matches_boundary_witness :
    within ((1 : ℚ), (0 : ℚ)) (sqState.shapes.get ⟨0, by decide⟩) = false ∧
    scanShapes ((1 : ℚ), (0 : ℚ)) sqState.shapes ≠ some 0 :=
  scan_never_matches_boundary sqState (1, 0) 0 (by decide)
    (by with_unfolding_all decide)

/-- Helper: on numeric coordinates and a store with parallel shape/record
sequences, `find_longhurst` always reduces to a two-key dict projection. -/
theorem find_longhurst_num_eq_dictGet (s : ModuleState) (x y : ℚ) (out : String)
    (hlen : s.records.length = s.shapes.length) :
    ∃ c n, find_longhurst s (.num x) (.num y) out =
      dictGet [("code", c), ("name", n)] out := by
  cases hscan : scanShapes (x, y) s.shapes with
  | none =>
    exact ⟨"NOT_IN_PROV", sentinelName, by simp [find_longhurst, pyFloat, hscan]⟩
  | some i =>
    have hi : i < s.shapes.length := by
      obtain ⟨j, hj, hij, -, -⟩ := scan_some_spec (x, y) s.shapes 0 i hscan
      omega
    have hr : i < s.records.length := by rw [hlen]; exact hi
    have hget : s.records[i]? = some s.records[i] :=
      List.getElem?_eq_getElem hr
    exact ⟨s.records[i].code, s.records[i].name,
      by simp [find_longhurst, pyFloat, hscan, hget]⟩

/-- C5: `find_longhurst` succeeds exactly when its input is well-formed (both
coordinates float-coercible and the selector one of "code"/"name"), and any
error it raises is an input error: the `ValueError` from `float()` or the
`KeyError` on the `out` selector. -/
theorem find_longhurst_input_error_iff (s : ModuleState) (x y : PyVal)
    (out : String) (hlen : s.records.length = s.shapes.length) :
    ((∃ v, find_longhurst s x y out = .ok v) ↔
      (coercible x = true ∧ coercible y = true ∧
        (out = "code" ∨ out = "name"))) ∧
    (∀ e, find_longhurst s x y out = .error e →
      (∃ m, e = PyErr.valueError m) ∨ e = PyErr.keyError out) := by
  cases x with
  | nonNumeric d =>
    constructor
    · constructor
      · intro ⟨v, hv⟩
        simp [find_longhurst, pyFloat] at hv
      · rintro ⟨hx, -⟩
        simp [coercible] at hx
    · intro e he
      simp [find_longhurst, pyFloat] at he
      exact Or.inl ⟨_, he.symm⟩
  | num qx =>
    cases y with
    | nonNumeric d =>
      constructor
      · constructor
        · intro ⟨v, hv⟩
          simp [find_longhurst, pyFloat] at hv
        · rintro ⟨-, hy, -⟩
          simp [coercible] at hy
      · intro e he
        simp [find_longhurst, pyFloat] at he
        exact Or.inl ⟨_, he.symm⟩
    | num qy =>
      obtain ⟨c, n, heq⟩ := find_longhurst_num_eq_dictGet s qx qy out hlen
      constructor
      · rw [heq]
        simpa [coercible] using dictGet_ok_iff c n out
      · intro e he
        rw [heq] at he
        exact Or.inr (dictGet_error_eq c n out e he)

/-- C5 witness: with numeric coordinates but the unrecognized selector
"bogus", the call fails, and the failure is the selector `KeyError`. -/
theorem find_longhurst_input_error_iff_witness :
    ((∃ v, find_longhurst sqState (.num 1) (.num 1) "bogus" = .ok v) ↔
      (coercible (.num 1) = true ∧ coercible (.num 1) = true ∧
        ("bogus" = "code" ∨ "bogus" = "name"))) ∧
    (∀ e, find_longhurst sqState (.num 1) (.num 1) "bogus" = .error e →
      (∃ m, e = PyErr.valueError m) ∨ e = PyErr.keyError "bogus") :=
  find_longhurst_input_error_iff sqState (.num 1) (.num 1) "bogus" rfl

/-- C4: the metadata accessor fails with `ValueError "invalid province code"`
(the spec's NotFoundError) exactly when no row of the table has a matching
`PROVCODE`; the classifier's "not in province" outcome, by contrast, is an
ordinary returned value, not an error. -/
theorem longhurst_meta_invalid_code_iff (s : ModuleState) (t : List MetaRow)
    (code : String) (hl : s.lmeta = some t) :
    (longhurst_meta s (some code) =
        .error (.valueError "invalid province code") ↔
      ∀ r ∈ t, r.PROVCODE ≠ code) ∧
    (∀ st : ModuleState, ∀ x y : ℚ,
      (∀ i, (hi : i < st.shapes.length) →
        within (x, y) (st.shapes.get ⟨i, hi⟩) = false) →
      find_longhurst st (.num x) (.num y) "code" = .ok "NOT_IN_PROV") := by
  constructor
  · constructor
    · intro h r hr hcode
      have hmem : r ∈ t.filter (fun row => row.PROVCODE == code) := by
        rw [List.mem_filter]
        exact ⟨hr, by simp [hcode]⟩
      cases hdf : t.filter (fun row => row.PROVCODE == code) with
      | nil =>
        rw [hdf] at hmem
        cases hmem
      | cons a rest =>
        cases rest with
        | nil => simp [longhurst_meta, hl, hdf] at h
        | cons b rest2 => simp [longhurst_meta, hl, hdf] at h
    · intro hall
      have hdf : t.filter (fun row => row.PROVCODE == code) = [] := by
        rw [List.filter_eq_nil_iff]
        intro r hr
        simp [hall r hr]
      simp [longhurst_meta, hl, hdf]
  · intro st x y h
    have hscan := scanShapes_eq_none (x, y) st.shapes h
    simp [find_longhurst, pyFloat, hscan, dictGet_code]

/-- C4 witness: looking up the absent code "ZZZZ" in a one-row table fails
with the invalid-province-code error. -/
theorem longhurst_meta_invalid_code_iff_witness :
    (longhurst_meta metaState (some "ZZZZ") =
        .error (.valueError "invalid province code") ↔
      ∀ r ∈ [rowARCT], r.PROVCODE ≠ "ZZZZ") ∧
    (∀ st : ModuleState, ∀ x y : ℚ,
      (∀ i, (hi : i < st.shapes.length) →
        within (x, y) (st.shapes.get ⟨i, hi⟩) = false) →
      find_longhurst st (.num x) (.num y) "code" = .ok "NOT_IN_PROV") :=
  longhurst_meta_invalid_code_iff metaState [rowARCT] "ZZZZ" rfl

/-- C7: for every code matching exactly one row, `longhurst_meta` returns that
row as a field-name to value mapping whose `PROVCODE` field equals the given
code. -/
theorem longhurst_meta_single_match (s : ModuleState) (t : List MetaRow)
    (code : String) (r : MetaRow) (hl : s.lmeta = some t)
    (hone : t.filter (fun row => row.PROVCODE == code) = [r]) :
    longhurst_meta s (some code) = .ok (.rowDict (rowToDict r)) ∧
    (rowToDict r).find? (fun kv => kv.1 == "PROVCODE") =
      some ("PROVCODE", code) := by
  have hr : r.PROVCODE = code := by
    have hmem : r ∈ t.filter (fun row => row.PROVCODE == code) := by
      rw [hone]
      exact List.mem_singleton_self r
    have hpred := (List.mem_filter.mp hmem).2
    simpa using hpred
  constructor
  · simp [longhurst_meta, hl, hone]
  · have hfind : (rowToDict r).find? (fun kv => kv.1 == "PROVCODE") =
        some ("PROVCODE", r.PROVCODE) := rfl
    rw [hfind, hr]

/-- C7 witness: looking up "ARCT" in the one-row table returns that row as a
record whose PROVCODE field is "ARCT". -/
theorem longhurst_meta_single_match_witness :
    longhurst_meta metaState (some "ARCT") =
      .ok (.rowDict (rowToDict rowARCT)) ∧
    (rowToDict rowARCT).find? (fun kv => kv.1 == "PROVCODE") =
      some ("PROVCODE", "ARCT") :=
  longhurst_meta_single_match metaState [rowARCT] "ARCT" rowARCT rfl rfl

/-- C8: the classifier is deterministic and side-effect free: its output is a
function of the store contents (`shapes`, `records`) and the arguments alone,
and a call leaves the module state unchanged. -/
theorem find_longhurst_deterministic_pure (s₁ s₂ : ModuleState) (x y : PyVal)
    (out : String) (hsh : s₁.shapes = s₂.shapes)
    (hrec : s₁.records = s₂.records) :
    (find_longhurst_st s₁ x y out).2 = (find_longhurst_st s₂ x y out).2 ∧
    (find_longhurst_st s₁ x y out).1 = s₁ := by
  refine ⟨?_, rfl⟩
  simp only [find_longhurst_st]
  unfold find_longhurst
  rw [hsh, hrec]

/-- C8 witness: two calls with identical arguments on the same store agree,
and the state is untouched. -/
theorem find_longhurst_deterministic_pure_witness :
    (find_longhurst_st sqState (.num 1) (.num 1) "code").2 =
      (find_longhurst_st sqState (.num 1) (.num 1) "code").2 ∧
    (find_longhurst_st sqState (.num 1) (.num 1) "code").1 = sqState :=
  find_longhurst_deterministic_pure sqState sqState (.num 1) (.num 1) "code"
    rfl rfl

/-- C9: both public operations preserve the loaded module state (shapes,
records and metadata table), and `longhurst_meta` with no argument returns
the stored table itself. -/
theorem queries_preserve_state (s : ModuleState) (x y : PyVal) (out : String)
    (prov : Option String) (t : List MetaRow) (hl : s.lmeta = some t) :
    (find_longhurst_st s x y out).1 = s ∧
    (longhurst_meta_st s prov).1 = s ∧
    longhurst_meta s none = .ok (.table t) := by
  refine ⟨rfl, rfl, ?_⟩
  simp [longhurst_meta, hl]

/-- C9 witness: on the one-row metadata state, both operations leave the
state unchanged and the no-argument accessor returns the stored table. -/
theorem queries_preserve_state_witness :
    (find_longhurst_st metaState (.num 0) (.num 0) "code").1 = metaState ∧
    (longhurst_meta_st metaState (some "ARCT")).1 = metaState ∧
    longhurst_meta metaState none = .ok (.table [rowARCT]) :=
  queries_preserve_state metaState (.num 0) (.num 0) "code" (some "ARCT")
    [rowARCT] rfl

/-- C6 counterexample: with the shapefile readable and the metadata CSV
missing, the module load prints the missing-file message but surfaces **no**
error: the import completes, with `lmeta` left unbound. -/
theorem load_missing_csv_surfaces_no_error :
    (loadModule (.ok [] []) .fileNotFound).result = .ok ⟨[], [], none⟩ ∧
    (loadModule (.ok [] []) .fileNotFound).printed = [csvMissingMsg] :=
  ⟨rfl, rfl⟩

/-- C6 amended: a missing or unparseable source is reported by a printed
diagnostic — for the shapefile distinguishing the missing-file case (expected
location and download instructions) from other failures (cause surfaced
verbatim) — and is never recovered into a usable store: either the module's
initialization itself fails with an exception, or it completes with the
metadata name unbound so that every metadata access fails with a `NameError`. -/
theorem load_failure_not_recovered (shp : ShpSource) (csv : CsvSource)
    (hbad : (∃ m, shp = .err m) ∨ csv = .fileNotFound ∨
      (∃ m, csv = .otherError m)) :
    ((∀ st, (loadModule shp csv).result ≠ .ok st) ∨
      (∃ st, (loadModule shp csv).result = .ok st ∧
        ∀ prov, longhurst_meta st prov = .error (.nameError "lmeta"))) ∧
    (∀ m, shp = .err m →
      (loadModule shp csv).printed =
        [if pyIn "Unable to open" m then shpMissingMsg
         else "Error when reading Longhurst shapefile:\n\n" ++ m]) := by
  cases shp with
  | err m =>
    refine ⟨Or.inl ?_, ?_⟩
    · intro st h
      simp [loadModule] at h
    · intro m' hm'
      injection hm' with h1
      subst h1
      rfl
  | ok shs recs =>
    refine ⟨?_, ?_⟩
    · rcases hbad with ⟨m, hm⟩ | hfnf | ⟨m, hm⟩
      · cases hm
      · subst hfnf
        exact Or.inr ⟨_, rfl, fun prov => rfl⟩
      · subst hm
        exact Or.inl fun st h => by simp [loadModule] at h
    · intro m hm
      cases hm

/-- C6 amended witness: a shapefile failure whose message contains the
phrase Unable to open aborts the module initialization with an error and
prints the actionable missing-file message. -/
theorem load_failure_not_recovered_witness :
    ((∀ st,
      (loadModule (.err "Unable to open rawdata") (.ok [])).result ≠ .ok st) ∨
      (∃ st,
        (loadModule (.err "Unable to open rawdata") (.ok [])).result =
          .ok st ∧
        ∀ prov, longhurst_meta st prov = .error (.nameError "lmeta"))) ∧
    (∀ m, ShpSource.err "Unable to open rawdata" = .err m →
      (loadModule (.err "Unable to open rawdata") (.ok [])).printed =
        [if pyIn "Unable to open" m then shpMissingMsg
         else "Error when reading Longhurst shapefile:\n\n" ++ m]) :=
  load_failure_not_recovered (.err "Unable to open rawdata") (.ok [])
    (Or.inl ⟨"Unable to open rawdata", rfl⟩)

end Longhurst
